import Mathlib

/-
Verification of the scanned-document-filer core pipeline.

The development shallowly embeds the repository's core modules:
  * `docfiler/image_processor.py` — page-index selection, image resizing,
    PDF page extraction and document dispatch (`ImageProcessor`);
  * `docfiler/api_clients.py` — the shared fenced-JSON response parsing
    (`_parse_json_response`) and the OpenAI request-parameter assembly;
  * `docfiler/vlm_service.py` — the `FilingSuggestion` defaulting step of
    `VLMService.analyze_document`.

Images are modelled by their pixel dimensions (the PNG re-encoding step
`_image_to_bytes` preserves dimensions and is dimension-irrelevant to every
property below).  Python text is modelled as `List Char`; Python `int`
arithmetic as `Nat`.  The float computation `int(height * (max_dimension /
width))` in `_resize_image` is modelled by exact natural floor division
`height * max_dimension / width` (truncation of the exact ratio).  External
library calls (pathlib existence/suffix, pypdf page extraction, the network)
are modelled as explicit inputs.
-/

/-! ### Images (pixel dimensions) -/

structure Img where
  width : Nat
  height : Nat
deriving DecidableEq

/-- Model of `ImageProcessor._resize_image`: scale down so the larger axis equals
`maxDim`, keeping aspect ratio; images already within bounds pass through.
The Python float expression `int(height * scale)` with
`scale = max_dimension / width` is modelled as the exact floor
`height * maxDim / width`. -/
def resizeImage (maxDim : Nat) : Img → Img
  | Img.mk width height =>
    if width > height then
      if width > maxDim then
        Img.mk maxDim (height * maxDim / width)
      else Img.mk width height
    else
      if height > maxDim then
        Img.mk (width * maxDim / height) maxDim
      else Img.mk width height

/-- Model of `ImageProcessor._get_page_indices`: which 0-based pages of an
`numPages`-page PDF to extract. -/
def getPageIndices (numPages : Nat) : List Nat :=
  if numPages = 1 then [0]
  else if numPages = 2 then [0, 1]
  else if numPages = 3 then [0, 1, 2]
  else [0, numPages / 2, numPages - 1]

/-! ### Document processing -/

/-- Error kinds of `ImageProcessor.process_document` (`FileNotFoundError`
and `ValueError` for an unsupported extension in the source; the spec's
`ExtractionFailure` kind is included so that claims about it are statable —
the code never produces it). -/
inductive DocError where
  | notFound
  | unsupportedFormat (suffix : List Char)
  | extractionFailure
deriving DecidableEq

/-- An input document as the code observes it: whether the path exists
(`Path.exists()`), its extension (`Path.suffix`), and its content under the
two views the code may take of it.  `pdfPages` gives, per PDF page, the first
image that the XObject-extraction loop of `process_pdf` can successfully
convert (`none` when every attempt on that page fails); `image` is the frame
`Image.open` yields for a raster file. -/
structure DocFile where
  fileExists : Bool
  suffix : List Char
  pdfPages : List (Option Img)
  image : Img

/-- The white 100×100 placeholder created by `process_pdf` when no images
were extracted. -/
def placeholderImg : Img := Img.mk 100 100

/-- Model of `ImageProcessor.process_pdf`: select page indices, keep each selected
page's successfully extracted image (resized), and fall back to a single
100×100 placeholder when nothing was extracted.  The codomain is `Except`
so that claims about error surfacing are statable; the source never raises
here. -/
def processPdf (maxDim : Nat) (pages : List (Option Img)) : Except DocError (List Img) :=
  let indices := getPageIndices pages.length
  let images := indices.filterMap (fun i => (pages.getD i none).map (resizeImage maxDim))
  if images.isEmpty then Except.ok [placeholderImg] else Except.ok images

/-- Model of `ImageProcessor.process_image`: resize the single frame. -/
def processImage (maxDim : Nat) (img : Img) : Except DocError (List Img) :=
  Except.ok [resizeImage maxDim img]

/-- ASCII lowercasing of one character (`str.lower()`; extensions are
ASCII). -/
def lowerChar (c : Char) : Char :=
  if 'A' ≤ c && c ≤ 'Z' then Char.ofNat (c.toNat + 32) else c

/-- Python `str.lower()` on modelled text. -/
def pyLower (l : List Char) : List Char := l.map lowerChar

/-- The raster extensions accepted by `process_document` (besides `.pdf`). -/
def supportedImageSuffixes : List (List Char) :=
  [".png".toList, ".jpg".toList, ".jpeg".toList, ".tiff".toList, ".tif".toList, ".bmp".toList]

/-- Model of `ImageProcessor.process_document`: existence check, then dispatch on
the lower-cased extension. -/
def processDocument (maxDim : Nat) (doc : DocFile) : Except DocError (List Img) :=
  if doc.fileExists = false then Except.error DocError.notFound
  else
    let suffix := pyLower doc.suffix
    if suffix = ".pdf".toList then processPdf maxDim doc.pdfPages
    else if suffix ∈ supportedImageSuffixes then processImage maxDim doc.image
    else Except.error (DocError.unsupportedFormat suffix)

/-! ### OpenAI request parameters (`OpenAIClient.analyze_document`) -/

/-- One element of the OpenAI chat message `content` array: an inline
base64 image URL part or the trailing text part. -/
inductive ContentPart where
  | imageUrl (url : String)
  | text (t : String)
deriving DecidableEq

/-- A value in the `params` dict assembled by `OpenAIClient.analyze_document`. -/
inductive OAIValue where
  | str (s : String)
  | num (n : Nat)
  | messages (content : List ContentPart)
deriving DecidableEq

/-- The `params` dict of `OpenAIClient.analyze_document`: model, the single
user message (N image parts then the prompt text part), and exactly one
token-budget entry whose key depends on the model identifier's prefix.
`imagesB64` are the base64 encodings of the image bytes. -/
def openAIParams (model prompt : String) (imagesB64 : List String) (maxTokens : Nat) :
    List (String × OAIValue) :=
  let content :=
    imagesB64.map (fun b => ContentPart.imageUrl ("data:image/png;base64," ++ b)) ++
      [ContentPart.text prompt]
  let params := [("model", OAIValue.str model), ("messages", OAIValue.messages content)]
  if model.startsWith "o1-" || model.startsWith "gpt-5" then
    params ++ [("max_completion_tokens", OAIValue.num maxTokens)]
  else
    params ++ [("max_tokens", OAIValue.num maxTokens)]

/-- Whether a params key is one of the two token-budget parameter names. -/
def isTokenBudgetKey (k : String) : Bool :=
  k == "max_tokens" || k == "max_completion_tokens"

/-! ### JSON values and strict parsing (model of Python `json.loads`) -/

/-- A JSON value.  Numbers are exact rationals (Python floats/ints both map
here; no claim depends on float rounding of parsed numbers).  Text is
`List Char` like all modelled Python text. -/
inductive Value where
  | null
  | bool (b : Bool)
  | num (q : ℚ)
  | str (s : List Char)
  | arr (items : List Value)
  | obj (members : List (List Char × Value))

/-- JSON inter-token whitespace. -/
def jsonWs (c : Char) : Bool :=
  c = ' ' || c = '\t' || c = '\n' || c = '\r'

/-- ASCII decimal digit. -/
def isDig (c : Char) : Bool := '0' ≤ c && c ≤ '9'

/-- Split off a maximal run of digits. -/
def spanDigits (l : List Char) : List Char × List Char :=
  (l.takeWhile isDig, l.dropWhile isDig)

/-- Numeric value of a digit run. -/
def digitsToNat (ds : List Char) : Nat :=
  ds.foldl (fun acc c => acc * 10 + (c.toNat - 48)) 0

/-- Value of a hex digit, if any. -/
def hexDigit (c : Char) : Option Nat :=
  if '0' ≤ c && c ≤ '9' then some (c.toNat - 48)
  else if 'a' ≤ c && c ≤ 'f' then some (c.toNat - 87)
  else if 'A' ≤ c && c ≤ 'F' then some (c.toNat - 55)
  else none

/-- Single-character JSON string escapes. -/
def escChar (c : Char) : Option Char :=
  if c = '"' then some '"'
  else if c = '\\' then some '\\'
  else if c = '/' then some '/'
  else if c = 'b' then some '\x08'
  else if c = 'f' then some '\x0c'
  else if c = 'n' then some '\n'
  else if c = 'r' then some '\r'
  else if c = 't' then some '\t'
  else none

/-- Parse a JSON string body after the opening quote; fuel-recursive. -/
def parseStrBody : Nat → List Char → Except String (List Char × List Char)
  | 0, _ => Except.error "fuel exhausted"
  | _, [] => Except.error "unterminated string"
  | fuel + 1, c :: rest =>
    if c = '"' then Except.ok ([], rest)
    else if c = '\\' then
      match rest with
      | [] => Except.error "unterminated escape"
      | 'u' :: a :: b :: c2 :: d :: rest2 =>
        match hexDigit a, hexDigit b, hexDigit c2, hexDigit d with
        | some va, some vb, some vc, some vd =>
          match parseStrBody fuel rest2 with
          | Except.ok (s, r) =>
            Except.ok (Char.ofNat (((va * 16 + vb) * 16 + vc) * 16 + vd) :: s, r)
          | Except.error e => Except.error e
        | _, _, _, _ => Except.error "invalid unicode escape"
      | e :: rest2 =>
        match escChar e with
        | some ch =>
          match parseStrBody fuel rest2 with
          | Except.ok (s, r) => Except.ok (ch :: s, r)
          | Except.error err => Except.error err
        | none => Except.error "invalid escape"
    else if c.toNat < 32 then Except.error "control character in string"
    else
      match parseStrBody fuel rest with
      | Except.ok (s, r) => Except.ok (c :: s, r)
      | Except.error e => Except.error e

/-- Parse a JSON number (sign, integer part with no leading zero, optional
fraction and exponent) into an exact rational. -/
def parseNum (l : List Char) : Except String (ℚ × List Char) :=
  let (neg, l1) := match l with
    | '-' :: r => (true, r)
    | _ => (false, l)
  let (intDs, l2) := spanDigits l1
  if intDs.isEmpty then Except.error "expecting value"
  else if intDs.length > 1 && intDs.headD 'x' = '0' then Except.error "leading zero"
  else
    let (fracDs, l3) := match l2 with
      | '.' :: r => spanDigits r
      | _ => ([], l2)
    if l2.headD ' ' = '.' && fracDs.isEmpty then Except.error "empty fraction"
    else
      let parseExp : List Char → Except String (Int × List Char) := fun m =>
        match m with
        | 'e' :: r | 'E' :: r =>
          let (esign, r1) : Bool × List Char := match r with
            | '-' :: r2 => (true, r2)
            | '+' :: r2 => (false, r2)
            | _ => (false, r)
          let (expDs, r2) := spanDigits r1
          if expDs.isEmpty then Except.error "empty exponent"
          else Except.ok (if esign then -(digitsToNat expDs : Int) else (digitsToNat expDs : Int), r2)
        | _ => Except.ok (0, m)
      match parseExp l3 with
      | Except.error e => Except.error e
      | Except.ok (e, l4) =>
        let mag : ℚ :=
          ((digitsToNat intDs : ℚ) + (digitsToNat fracDs : ℚ) / (10 : ℚ) ^ fracDs.length) *
            (10 : ℚ) ^ e
        Except.ok (if neg then -mag else mag, l4)

mutual

/-- Parse one JSON value (with object/array recursion on fuel), returning
the remaining input. -/
def parseValue : Nat → List Char → Except String (Value × List Char)
  | 0, _ => Except.error "fuel exhausted"
  | fuel + 1, l =>
    match l.dropWhile jsonWs with
    | [] => Except.error "expecting value"
    | c :: rest =>
      if c = 'n' then
        match rest with
        | 'u' :: 'l' :: 'l' :: r => Except.ok (Value.null, r)
        | _ => Except.error "expecting value"
      else if c = 't' then
        match rest with
        | 'r' :: 'u' :: 'e' :: r => Except.ok (Value.bool true, r)
        | _ => Except.error "expecting value"
      else if c = 'f' then
        match rest with
        | 'a' :: 'l' :: 's' :: 'e' :: r => Except.ok (Value.bool false, r)
        | _ => Except.error "expecting value"
      else if c = '"' then
        match parseStrBody (rest.length + 1) rest with
        | Except.ok (s, r) => Except.ok (Value.str s, r)
        | Except.error e => Except.error e
      else if c = '[' then
        match rest.dropWhile jsonWs with
        | ']' :: r => Except.ok (Value.arr [], r)
        | _ => parseElems fuel rest []
      else if c = '\x7b' then
        match rest.dropWhile jsonWs with
        | '\x7d' :: r => Except.ok (Value.obj [], r)
        | _ => parseMembers fuel rest []
      else
        match parseNum (c :: rest) with
        | Except.ok (q, r) => Except.ok (Value.num q, r)
        | Except.error e => Except.error e

/-- Parse the non-empty element list of a JSON array (after `[`),
accumulating in reverse. -/
def parseElems : Nat → List Char → List Value → Except String (Value × List Char)
  | 0, _, _ => Except.error "fuel exhausted"
  | fuel + 1, l, acc =>
    match parseValue fuel l with
    | Except.error e => Except.error e
    | Except.ok (v, r) =>
      match r.dropWhile jsonWs with
      | ',' :: r2 => parseElems fuel r2 (v :: acc)
      | ']' :: r2 => Except.ok (Value.arr (v :: acc).reverse, r2)
      | _ => Except.error "expecting comma or bracket"

/-- Parse the non-empty member list of a JSON object (after a left brace),
accumulating in reverse. -/
def parseMembers : Nat → List Char → List (List Char × Value) →
    Except String (Value × List Char)
  | 0, _, _ => Except.error "fuel exhausted"
  | fuel + 1, l, acc =>
    match l.dropWhile jsonWs with
    | '"' :: rest =>
      match parseStrBody (rest.length + 1) rest with
      | Except.error e => Except.error e
      | Except.ok (k, r) =>
        match r.dropWhile jsonWs with
        | ':' :: r2 =>
          match parseValue fuel r2 with
          | Except.error e => Except.error e
          | Except.ok (v, r3) =>
            match r3.dropWhile jsonWs with
            | ',' :: r4 => parseMembers fuel r4 ((k, v) :: acc)
            | '\x7d' :: r4 => Except.ok (Value.obj ((k, v) :: acc).reverse, r4)
            | _ => Except.error "expecting comma or brace"
        | _ => Except.error "expecting colon"
    | _ => Except.error "expecting property name"

end

/-- Model of Python `json.loads` on the strict JSON grammar: parse one
value, then require the remainder to be only whitespace ("Extra data"
otherwise). -/
def jsonLoads (l : List Char) : Except String Value :=
  match parseValue (l.length + 1) l with
  | Except.error e => Except.error e
  | Except.ok (v, r) =>
    if (r.dropWhile jsonWs).isEmpty then Except.ok v
    else Except.error "extra data"

/-! ### Fence stripping and response parsing (`_parse_json_response`) -/

/-- Python whitespace for `str.strip()` (ASCII). -/
def pySpace (c : Char) : Bool :=
  c = ' ' || c = '\t' || c = '\n' || c = '\r' || c = '\x0b' || c = '\x0c'

/-- Python `str.strip()`: drop leading and trailing whitespace. -/
def pyStrip (l : List Char) : List Char :=
  ((l.dropWhile pySpace).reverse.dropWhile pySpace).reverse

/-- The fence-stripping part of `ClaudeClient._parse_json_response`
(shared verbatim by the OpenAI and Gemini clients): strip, remove a
leading language-tagged or bare triple-backtick fence with its closing
fence when present, strip again. -/
def stripFence (t : List Char) : List Char :=
  let text := pyStrip t
  if "```json".toList.isPrefixOf text then
    let text2 := text.drop 7
    let text3 :=
      if "```".toList.isSuffixOf text2 then text2.take (text2.length - 3) else text2
    pyStrip text3
  else if "```".toList.isPrefixOf text then
    let text2 := text.drop 3
    let text3 :=
      if "```".toList.isSuffixOf text2 then text2.take (text2.length - 3) else text2
    pyStrip text3
  else text

/-- The error of `_parse_json_response` (`ValueError("Invalid JSON
response: ...")` in the source, the spec's `MalformedResponseError`),
carrying the decode error's message. -/
inductive RespError where
  | malformedResponse (msg : String)

/-- Model of `ClaudeClient._parse_json_response`: strip fencing, then parse the
remaining text strictly as JSON; a decode failure is re-raised as the
malformed-response error. -/
def parseJsonResponse (t : List Char) : Except RespError Value :=
  match jsonLoads (stripFence t) with
  | Except.ok v => Except.ok v
  | Except.error e => Except.error (RespError.malformedResponse e)

/-- A JSON-tagged fenced code block around `s`, as a VLM reply renders it. -/
def wrapJsonFence (s : List Char) : List Char :=
  "```json\n".toList ++ s ++ "\n```".toList

/-- A bare fenced code block around `s`. -/
def wrapBareFence (s : List Char) : List Char :=
  "```\n".toList ++ s ++ "\n```".toList

/-! ### Filing-suggestion defaulting (`VLMService.analyze_document`) -/

/-- The `FilingSuggestion` dataclass.  Fields hold raw JSON values because
the source performs no validation or conversion on them (the `float`
annotation on `confidence` is unenforced by Python). -/
structure FilingSuggestion where
  filename : Value
  destination : Value
  confidence : Value
  reasoning : Value

/-- Python `dict.get(key, default)` over the decoded JSON object's members. -/
def dictGet (d : List (List Char × Value)) (k : List Char) (default : Value) : Value :=
  match d.lookup k with
  | some v => v
  | none => default

/-- The suggestion-construction step of `VLMService.analyze_document`
(lines 122–128): each field from the raw response when present, the fixed
default otherwise. -/
def buildFilingSuggestion (response : List (List Char × Value)) : FilingSuggestion :=
  FilingSuggestion.mk
    (dictGet response "filename".toList (Value.str "untitled.pdf".toList))
    (dictGet response "destination".toList (Value.str "unsorted".toList))
    (dictGet response "confidence".toList (Value.num 0))
    (dictGet response "reasoning".toList (Value.str "No reasoning provided".toList))

/-! ### C1: page-index selection -/

/-- C1: `_get_page_indices` follows the 1/2/3/≥4 policy; the result is
strictly increasing, has length at most 3, always contains 0, and contains
`n - 1` whenever `n ≥ 2`. -/
theorem getPageIndices_policy (n : Nat) (hn : 1 ≤ n) :
    (n = 1 → getPageIndices n = [0]) ∧
    (n = 2 → getPageIndices n = [0, 1]) ∧
    (n = 3 → getPageIndices n = [0, 1, 2]) ∧
    (4 ≤ n → getPageIndices n = [0, n / 2, n - 1]) ∧
    List.Pairwise (· < ·) (getPageIndices n) ∧
    (getPageIndices n).length ≤ 3 ∧
    0 ∈ getPageIndices n ∧
    (2 ≤ n → n - 1 ∈ getPageIndices n) := by
  by_cases h1 : n = 1
  · subst h1; refine ⟨fun _ => rfl, ?_, ?_, ?_, ?_, ?_, ?_, ?_⟩ <;> first | omega | decide
  by_cases h2 : n = 2
  · subst h2; refine ⟨?_, fun _ => rfl, ?_, ?_, ?_, ?_, ?_, ?_⟩ <;> first | omega | decide
  by_cases h3 : n = 3
  · subst h3; refine ⟨?_, ?_, fun _ => rfl, ?_, ?_, ?_, ?_, ?_⟩ <;> first | omega | decide
  have h4 : 4 ≤ n := by omega
  have hout : getPageIndices n = [0, n / 2, n - 1] := by
    simp [getPageIndices, h1, h2, h3]
  refine ⟨fun h => absurd h h1, fun h => absurd h h2, fun h => absurd h h3,
    fun _ => hout, ?_, ?_, ?_, ?_⟩
  · rw [hout]
    refine List.pairwise_cons.mpr ⟨?_, List.pairwise_cons.mpr ⟨?_, ?_⟩⟩ <;> simp <;> omega
  · rw [hout]; simp
  · rw [hout]; simp
  · intro _; rw [hout]; simp

/-- C1 witness: the policy and its invariants at the concrete 10-page case. -/
theorem getPageIndices_policy_witness :
    1 ≤ 10 ∧ getPageIndices 10 = [0, 5, 9] ∧ List.Pairwise (· < ·) (getPageIndices 10) := by
  have h := getPageIndices_policy 10 (by decide)
  exact ⟨by decide, h.2.2.2.1 (by decide), h.2.2.2.2.1⟩

/-! ### Arithmetic helpers -/

/-- Floor division undershoots its exact value by less than one divisor. -/
theorem lt_div_succ_mul (a b : Nat) (hb : 0 < b) : a < (a / b + 1) * b := by
  have h1 := Nat.div_add_mod a b
  have h2 := Nat.mod_lt a hb
  calc a = b * (a / b) + a % b := h1.symm
    _ < b * (a / b) + b := by omega
    _ = (a / b + 1) * b := by ring

/-- Scaling `y` by a factor `x / b ≤ 1` (as floor division) never exceeds `y`. -/
theorem mul_div_le_of_le (x y b : Nat) (hb : 0 < b) (hxb : x ≤ b) : x * y / b ≤ y := by
  calc x * y / b ≤ b * y / b := Nat.div_le_div_right (mul_le_mul_right' hxb y)
    _ = y := Nat.mul_div_cancel_left y hb

/-! ### C4: downscale invariant -/

/-- C4: for a source image whose larger axis exceeds `maxDim`, the resized
image's larger axis equals exactly `maxDim`, and the other axis is the floor
of the exact aspect-preserving value — i.e. within one pixel of the exact
ratio (the two integer inequalities pin it to the floor).  The 3000×2000 and
2000×3000 examples at `maxDim = 2048` are instantiated in the witness. -/
theorem resizeImage_downscale (maxDim w h : Nat) (hgt : maxDim < max w h) :
    max (resizeImage maxDim (Img.mk w h)).width (resizeImage maxDim (Img.mk w h)).height
      = maxDim ∧
    (h ≤ w → (resizeImage maxDim (Img.mk w h)).width = maxDim ∧
      (resizeImage maxDim (Img.mk w h)).height * w ≤ h * maxDim ∧
      h * maxDim < ((resizeImage maxDim (Img.mk w h)).height + 1) * w) ∧
    (w < h → (resizeImage maxDim (Img.mk w h)).height = maxDim ∧
      (resizeImage maxDim (Img.mk w h)).width * h ≤ w * maxDim ∧
      w * maxDim < ((resizeImage maxDim (Img.mk w h)).width + 1) * h) := by
  simp only [resizeImage]
  split_ifs with hwh hw hh
  · -- w > h and w > maxDim: scaled to (maxDim, h * maxDim / w)
    have hw0 : 0 < w := by omega
    have hle : h * maxDim / w ≤ maxDim := mul_div_le_of_le h maxDim w hw0 (by omega)
    refine ⟨?_, fun _ => ⟨rfl, ?_, ?_⟩, fun hlt => absurd hlt (by omega)⟩
    · simpa using Nat.max_eq_left hle
    · simpa using Nat.div_mul_le_self (h * maxDim) w
    · simpa using lt_div_succ_mul (h * maxDim) w hw0
  · -- w > h but w ≤ maxDim: contradicts maxDim < max w h
    exfalso
    have := Nat.max_eq_left (Nat.le_of_lt hwh)
    omega
  · -- w ≤ h and h > maxDim: scaled to (w * maxDim / h, maxDim)
    have hh0 : 0 < h := by omega
    have hle : w * maxDim / h ≤ maxDim := mul_div_le_of_le w maxDim h hh0 (by omega)
    refine ⟨?_, fun hhw => ?_, fun _ => ⟨rfl, ?_, ?_⟩⟩
    · simpa using Nat.max_eq_right hle
    · have hwe : w = h := by omega
      subst hwe
      refine ⟨?_, ?_, ?_⟩
      · simpa using Nat.mul_div_cancel_left maxDim hh0
      · simp only [Nat.mul_div_cancel_left maxDim hh0]
        exact Nat.le_of_eq (Nat.mul_comm maxDim w)
      · simp only [Nat.mul_div_cancel_left maxDim hh0]
        calc w * maxDim = maxDim * w := Nat.mul_comm w maxDim
          _ < maxDim * w + w := Nat.lt_add_of_pos_right hh0
          _ = (maxDim + 1) * w := by ring
    · simpa using Nat.div_mul_le_self (w * maxDim) h
    · simpa using lt_div_succ_mul (w * maxDim) h hh0
  · -- w ≤ h and h ≤ maxDim: contradicts maxDim < max w h
    exfalso
    have := Nat.max_eq_right (by omega : w ≤ h)
    omega

/-- C4 witness: the downscale invariant at the spec's two worked examples. -/
theorem resizeImage_downscale_witness :
    2048 < max 3000 2000 ∧
    (resizeImage 2048 (Img.mk 3000 2000)).width = 2048 ∧
    resizeImage 2048 (Img.mk 3000 2000) = Img.mk 2048 1365 ∧
    resizeImage 2048 (Img.mk 2000 3000) = Img.mk 1365 2048 := by
  have h := resizeImage_downscale 2048 3000 2000 (by decide)
  exact ⟨by decide, (h.2.1 (by decide)).1, by decide, by decide⟩

/-! ### C8: pass-through within bounds, never upscale -/

/-- C8: an image already within bounds (`max(width, height) ≤ maxDim`) is
returned with identical pixel dimensions, and no image ever gains pixels on
either axis (`_resize_image` never upscales). -/
theorem resizeImage_no_upscale (maxDim w h : Nat) :
    (max w h ≤ maxDim → resizeImage maxDim (Img.mk w h) = Img.mk w h) ∧
    (resizeImage maxDim (Img.mk w h)).width ≤ w ∧
    (resizeImage maxDim (Img.mk w h)).height ≤ h := by
  simp only [resizeImage]
  split_ifs with hwh hw hh
  · -- w > h and w > maxDim: downscaled
    have hw0 : 0 < w := by omega
    refine ⟨fun hle => ?_, ?_, ?_⟩
    · exfalso
      have := Nat.le_max_left w h
      omega
    · simpa using Nat.le_of_lt hw
    · have hb := mul_div_le_of_le maxDim h w hw0 (by omega)
      rw [Nat.mul_comm maxDim h] at hb
      simpa using hb
  · exact ⟨fun _ => rfl, le_refl w, le_refl h⟩
  · -- w ≤ h and h > maxDim: downscaled
    have hh0 : 0 < h := by omega
    refine ⟨fun hle => ?_, ?_, ?_⟩
    · exfalso
      have := Nat.le_max_right w h
      omega
    · have hb := mul_div_le_of_le maxDim w h hh0 (by omega)
      rw [Nat.mul_comm maxDim w] at hb
      simpa using hb
    · simpa using Nat.le_of_lt hh
  · exact ⟨fun _ => rfl, le_refl w, le_refl h⟩

/-- C8 witness: a 100×100 image at `maxDim = 2048` passes through unchanged. -/
theorem resizeImage_no_upscale_witness :
    max 100 100 ≤ 2048 ∧ resizeImage 2048 (Img.mk 100 100) = Img.mk 100 100 :=
  ⟨by decide, (resizeImage_no_upscale 2048 100 100).1 (by decide)⟩

/-! ### C10: truncation to a zero-pixel dimension -/

/-- C10: when the larger axis exceeds `maxDim` and the smaller axis is so
small that `smaller * maxDim / larger` truncates to zero, `_resize_image`
produces a zero-pixel output dimension — there is no guard keeping both
output dimensions at least 1.  The 3000×1 example at `maxDim = 2048` is
instantiated in the witness. -/
theorem resizeImage_zero_dimension (maxDim w h : Nat)
    (hsmall : (h < w → h * maxDim < w) ∧ (w ≤ h → w * maxDim < h))
    (hbig : maxDim < max w h) :
    (h < w → resizeImage maxDim (Img.mk w h) = Img.mk maxDim 0) ∧
    (w ≤ h → resizeImage maxDim (Img.mk w h) = Img.mk 0 maxDim) := by
  simp only [resizeImage]
  constructor
  · intro h1
    have h3 : h * maxDim < w := hsmall.1 h1
    have h2 : maxDim < w := by
      have := Nat.max_eq_left (Nat.le_of_lt h1)
      omega
    rw [if_pos (by omega : w > h), if_pos (by omega : w > maxDim), Nat.div_eq_of_lt h3]
  · intro h1
    have h3 : w * maxDim < h := hsmall.2 h1
    have h2 : maxDim < h := by
      have := Nat.max_eq_right h1
      omega
    rw [if_neg (by omega : ¬w > h), if_pos (by omega : h > maxDim), Nat.div_eq_of_lt h3]

/-- C10 witness: a 3000×1 source at `maxDim = 2048` resizes to 2048×0. -/
theorem resizeImage_zero_dimension_witness :
    1 * 2048 < 3000 ∧ 2048 < max 3000 1 ∧
    resizeImage 2048 (Img.mk 3000 1) = Img.mk 2048 0 :=
  ⟨by decide, by decide,
    (resizeImage_zero_dimension 2048 3000 1 (by decide) (by decide)).1 (by decide)⟩

/-! ### C2: zero extracted images — placeholder, not failure -/

/-- C2 counterexample: on a 4-page PDF where every selected page fails to
yield an image, `process_pdf` does not raise an `ExtractionFailure`-kind
error — it returns a substitute result, a list holding the 100×100 white
placeholder image. -/
theorem processPdf_all_fail_counterexample :
    processPdf 2048 [none, none, none, none] = Except.ok [placeholderImg] ∧
    processPdf 2048 [none, none, none, none] ≠ Except.error DocError.extractionFailure :=
  ⟨rfl, fun h => Except.noConfusion h⟩

/-- Unfolding equation for `processPdf` (definitional). -/
theorem processPdf_eq (maxDim : Nat) (pages : List (Option Img)) :
    processPdf maxDim pages =
      if ((getPageIndices pages.length).filterMap
          (fun i => (pages.getD i none).map (resizeImage maxDim))).isEmpty then
        Except.ok [placeholderImg]
      else
        Except.ok ((getPageIndices pages.length).filterMap
          (fun i => (pages.getD i none).map (resizeImage maxDim))) := rfl

/-- C2 (amended): `process_pdf` never fails and never returns an empty
list; when every selected page fails to yield a usable image it returns
exactly one substitute image, the 100×100 white placeholder. -/
theorem processPdf_placeholder (maxDim : Nat) (pages : List (Option Img)) :
    (∃ l, processPdf maxDim pages = Except.ok l ∧ l ≠ []) ∧
    ((∀ i ∈ getPageIndices pages.length, pages.getD i none = none) →
      processPdf maxDim pages = Except.ok [placeholderImg]) := by
  constructor
  · rcases hE : (getPageIndices pages.length).filterMap
        (fun i => (pages.getD i none).map (resizeImage maxDim)) with _ | ⟨a, l⟩
    · refine ⟨[placeholderImg], ?_, by simp⟩
      rw [processPdf_eq, hE]
      rfl
    · refine ⟨a :: l, ?_, by simp⟩
      rw [processPdf_eq, hE]
      rfl
  · intro h
    have hE : (getPageIndices pages.length).filterMap
        (fun i => (pages.getD i none).map (resizeImage maxDim)) = [] := by
      refine List.filterMap_eq_nil_iff.mpr fun i hi => ?_
      rw [h i hi]
      rfl
    rw [processPdf_eq, hE]
    rfl

/-- C2 witness: the amended behavior at a concrete 2-page all-fail PDF. -/
theorem processPdf_placeholder_witness :
    (∀ i ∈ getPageIndices ([none, none] : List (Option Img)).length,
      ([none, none] : List (Option Img)).getD i none = none) ∧
    processPdf 2048 [none, none] = Except.ok [placeholderImg] :=
  ⟨by decide, (processPdf_placeholder 2048 [none, none]).2 (by decide)⟩

/-! ### C7: dispatch errors of `process_document` -/

/-- C7: `process_document` reports a not-found error for every
non-existing path, and an unsupported-format error for every existing file
whose (lower-cased) extension is outside the supported
pdf/png/jpg/jpeg/tiff/tif/bmp set; in both cases the result is an error,
not a list of images. -/
theorem processDocument_rejects (maxDim : Nat) (doc : DocFile) :
    (doc.fileExists = false → processDocument maxDim doc = Except.error DocError.notFound) ∧
    (doc.fileExists = true → pyLower doc.suffix ∉ ".pdf".toList :: supportedImageSuffixes →
      processDocument maxDim doc
        = Except.error (DocError.unsupportedFormat (pyLower doc.suffix))) := by
  constructor
  · intro hf
    simp [processDocument, hf]
  · intro hf hm
    simp only [List.mem_cons, not_or] at hm
    obtain ⟨h1, h2⟩ := hm
    simp at h1 h2
    simp [processDocument, hf, h1, h2]

/-- C7 witness: a nonexistent path and an existing `.txt` file. -/
theorem processDocument_rejects_witness :
    processDocument 2048 (DocFile.mk false ".png".toList [] (Img.mk 1 1))
      = Except.error DocError.notFound ∧
    processDocument 2048 (DocFile.mk true ".txt".toList [] (Img.mk 1 1))
      = Except.error (DocError.unsupportedFormat ".txt".toList) := by
  constructor
  · exact (processDocument_rejects 2048 (DocFile.mk false ".png".toList [] (Img.mk 1 1))).1 rfl
  · have h := (processDocument_rejects 2048 (DocFile.mk true ".txt".toList [] (Img.mk 1 1))).2
      rfl (by decide)
    simpa using h

/-! ### C3: suggestion defaulting -/

/-- C3: `analyze_document` maps the raw provider result into the
`FilingSuggestion` by `dict.get`-with-default on each of the four keys: the
empty mapping yields exactly the four fixed defaults, every present value —
of any type — is passed through unchanged, and every absent key takes its
fixed default. -/
theorem buildFilingSuggestion_defaults :
    buildFilingSuggestion [] = FilingSuggestion.mk (Value.str "untitled.pdf".toList)
      (Value.str "unsorted".toList) (Value.num 0)
      (Value.str "No reasoning provided".toList) ∧
    (∀ r v, r.lookup "filename".toList = some v → (buildFilingSuggestion r).filename = v) ∧
    (∀ r v, r.lookup "destination".toList = some v →
      (buildFilingSuggestion r).destination = v) ∧
    (∀ r v, r.lookup "confidence".toList = some v → (buildFilingSuggestion r).confidence = v) ∧
    (∀ r v, r.lookup "reasoning".toList = some v → (buildFilingSuggestion r).reasoning = v) ∧
    (∀ r, r.lookup "filename".toList = none →
      (buildFilingSuggestion r).filename = Value.str "untitled.pdf".toList) ∧
    (∀ r, r.lookup "destination".toList = none →
      (buildFilingSuggestion r).destination = Value.str "unsorted".toList) ∧
    (∀ r, r.lookup "confidence".toList = none →
      (buildFilingSuggestion r).confidence = Value.num 0) ∧
    (∀ r, r.lookup "reasoning".toList = none →
      (buildFilingSuggestion r).reasoning = Value.str "No reasoning provided".toList) := by
  refine ⟨rfl, ?_, ?_, ?_, ?_, ?_, ?_, ?_, ?_⟩ <;>
    intro r <;>
    first
      | (intro v hv; dsimp only [buildFilingSuggestion, dictGet]; rw [hv])
      | (intro hv; dsimp only [buildFilingSuggestion, dictGet]; rw [hv])

/-- C3 witness: a non-numeric `confidence` value is passed through
unchanged. -/
theorem buildFilingSuggestion_defaults_witness :
    ([("confidence".toList, Value.str "high".toList)].lookup "confidence".toList
      = some (Value.str "high".toList)) ∧
    (buildFilingSuggestion [("confidence".toList, Value.str "high".toList)]).confidence
      = Value.str "high".toList :=
  ⟨rfl, buildFilingSuggestion_defaults.2.2.2.1
    [("confidence".toList, Value.str "high".toList)] (Value.str "high".toList) rfl⟩

/-! ### C9: token-budget parameter selection -/

/-- C9: the OpenAI request parameters contain exactly one token-budget
entry, valued `maxTokens`; its key is `max_completion_tokens` precisely
when the model identifier starts with `o1-` or `gpt-5`, and `max_tokens`
otherwise — the choice depends only on the model identifier, not on the
prompt, the images, or the budget value. -/
theorem openAIParams_token_budget (model prompt : String) (imagesB64 : List String)
    (maxTokens : Nat) :
    (openAIParams model prompt imagesB64 maxTokens).filter (fun kv => isTokenBudgetKey kv.1)
      = [(if model.startsWith "o1-" || model.startsWith "gpt-5" then "max_completion_tokens"
          else "max_tokens", OAIValue.num maxTokens)] := by
  by_cases hc : (model.startsWith "o1-" || model.startsWith "gpt-5") = true
  · simp [openAIParams, hc, isTokenBudgetKey, List.filter]
  · simp only [Bool.not_eq_true] at hc
    simp [openAIParams, hc, isTokenBudgetKey, List.filter]

/-! ### List helpers for fence stripping -/

/-- A list is a `isPrefixOf`-prefix of itself followed by anything. -/
theorem isPrefixOf_self_append (l m : List Char) : l.isPrefixOf (l ++ m) = true := by
  induction l with
  | nil => simp [List.isPrefixOf]
  | cons a t ih => simp [List.isPrefixOf, ih]

/-- A prefix of a longer prefix: if `a ++ b` is a prefix then so is `a`. -/
theorem isPrefixOf_append_left (a b l : List Char) (h : (a ++ b).isPrefixOf l = true) :
    a.isPrefixOf l = true := by
  induction a generalizing l with
  | nil => simp [List.isPrefixOf]
  | cons x t ih =>
    cases l with
    | nil => simp [List.isPrefixOf] at h
    | cons y m =>
      simp only [List.cons_append, List.isPrefixOf, Bool.and_eq_true] at h ⊢
      exact ⟨h.1, ih m h.2⟩

/-- A nonempty list fixed by `dropWhile pySpace` starts with a non-space. -/
theorem head_not_pySpace {c : Char} {t : List Char}
    (h : (c :: t).dropWhile pySpace = c :: t) : pySpace c = false := by
  have hh := List.dropWhile_eq_self_iff.mp h (by simp)
  simpa using hh

/-- Lemma: `dropWhile` keeps a list headed by a non-space character. -/
theorem dropWhile_cons_false {c : Char} {l : List Char} (h : pySpace c = false) :
    (c :: l).dropWhile pySpace = c :: l := by
  rw [List.dropWhile_cons, if_neg (by simp [h])]

/-- Lemma: `pyStrip` fixes a list already stripped on both ends. -/
theorem pyStrip_eq_self {l : List Char} (h1 : l.dropWhile pySpace = l)
    (h2 : l.reverse.dropWhile pySpace = l.reverse) : pyStrip l = l := by
  unfold pyStrip
  rw [h1, h2, List.reverse_reverse]

/-- Lemma: `pyStrip` fixes any list delimited by backticks. -/
theorem pyStrip_backtick_wrap (mid : List Char) :
    pyStrip ('`' :: (mid ++ ['`'])) = '`' :: (mid ++ ['`']) := by
  apply pyStrip_eq_self
  · exact dropWhile_cons_false (by decide)
  · have hrev : ('`' :: (mid ++ ['`'])).reverse = '`' :: (mid.reverse ++ ['`']) := by
      simp
    rw [hrev]
    exact dropWhile_cons_false (by decide)

/-- Lemma: `pyStrip` strips exactly the wrapping newlines off a both-ends-stripped
payload. -/
theorem pyStrip_nl_wrap (s : List Char) (hd : s.dropWhile pySpace = s)
    (htl : s.reverse.dropWhile pySpace = s.reverse) :
    pyStrip ('\n' :: (s ++ ['\n'])) = s := by
  unfold pyStrip
  rw [List.dropWhile_cons, if_pos (by decide)]
  cases s with
  | nil => rfl
  | cons c t =>
    have hc : pySpace c = false := head_not_pySpace hd
    have h1 : ((c :: t) ++ ['\n']).dropWhile pySpace = (c :: t) ++ ['\n'] := by
      rw [List.cons_append]
      exact dropWhile_cons_false hc
    rw [h1]
    have h2 : ((c :: t) ++ ['\n']).reverse = '\n' :: (c :: t).reverse := by simp
    rw [h2, List.dropWhile_cons, if_pos (by decide), htl]
    exact List.reverse_reverse _

/-- Stripping a JSON-tagged fence recovers the (both-ends-stripped)
payload. -/
theorem stripFence_wrapJson (s : List Char) (hd : s.dropWhile pySpace = s)
    (htl : s.reverse.dropWhile pySpace = s.reverse) :
    stripFence (wrapJsonFence s) = s := by
  have hshape : wrapJsonFence s = '`' :: (("``json\n".toList ++ s ++ "\n``".toList) ++ ['`']) := by
    simp [wrapJsonFence, List.append_assoc]
  have hps : pyStrip (wrapJsonFence s) = wrapJsonFence s := by
    rw [hshape]
    exact pyStrip_backtick_wrap _
  have hsplit : wrapJsonFence s = "```json".toList ++ ('\n' :: (s ++ "\n```".toList)) := by
    simp [wrapJsonFence, List.append_assoc]
  have hpre : "```json".toList.isPrefixOf (wrapJsonFence s) = true := by
    rw [hsplit]
    exact isPrefixOf_self_append _ _
  have hdrop : (wrapJsonFence s).drop 7 = '\n' :: (s ++ "\n```".toList) := by
    rw [hsplit]
    have h7 : ("```json".toList).length = 7 := by decide
    rw [← h7, List.drop_left]
  have htail : '\n' :: (s ++ "\n```".toList) = ('\n' :: (s ++ ['\n'])) ++ "```".toList := by
    simp [List.append_assoc]
  have hsuf : "```".toList.isSuffixOf ('\n' :: (s ++ "\n```".toList)) = true := by
    unfold List.isSuffixOf
    have hrev : ('\n' :: (s ++ "\n```".toList)).reverse
        = "```".toList.reverse ++ ('\n' :: (s.reverse ++ ['\n'])) := by
      simp [List.reverse_append]
    rw [hrev]
    exact isPrefixOf_self_append _ _
  have hlen : ('\n' :: (s ++ "\n```".toList)).length - 3 = ('\n' :: (s ++ ['\n'])).length := by
    simp
  have htake : ('\n' :: (s ++ "\n```".toList)).take
      (('\n' :: (s ++ "\n```".toList)).length - 3) = '\n' :: (s ++ ['\n']) := by
    rw [hlen, htail]
    exact List.take_left _ _
  simp only [stripFence, hps, hpre, if_true, hdrop, hsuf, htake]
  exact pyStrip_nl_wrap s hd htl

/-- Stripping a bare fence recovers the (both-ends-stripped) payload. -/
theorem stripFence_wrapBare (s : List Char) (hd : s.dropWhile pySpace = s)
    (htl : s.reverse.dropWhile pySpace = s.reverse) :
    stripFence (wrapBareFence s) = s := by
  have hshape : wrapBareFence s = '`' :: (("``\n".toList ++ s ++ "\n``".toList) ++ ['`']) := by
    simp [wrapBareFence, List.append_assoc]
  have hps : pyStrip (wrapBareFence s) = wrapBareFence s := by
    rw [hshape]
    exact pyStrip_backtick_wrap _
  have hsplit : wrapBareFence s = "```".toList ++ ('\n' :: (s ++ "\n```".toList)) := by
    simp [wrapBareFence, List.append_assoc]
  have hcons : wrapBareFence s = '`' :: '`' :: '`' :: '\n' :: (s ++ "\n```".toList) := by
    rw [hsplit]
    rfl
  have hnotjson : "```json".toList.isPrefixOf (wrapBareFence s) = false := by
    rw [hcons]
    simp [List.isPrefixOf]
  have hpre : "```".toList.isPrefixOf (wrapBareFence s) = true := by
    rw [hsplit]
    exact isPrefixOf_self_append _ _
  have hdrop : (wrapBareFence s).drop 3 = '\n' :: (s ++ "\n```".toList) := by
    rw [hsplit]
    have h3 : ("```".toList).length = 3 := by decide
    rw [← h3, List.drop_left]
  have htail : '\n' :: (s ++ "\n```".toList) = ('\n' :: (s ++ ['\n'])) ++ "```".toList := by
    simp [List.append_assoc]
  have hsuf : "```".toList.isSuffixOf ('\n' :: (s ++ "\n```".toList)) = true := by
    unfold List.isSuffixOf
    have hrev : ('\n' :: (s ++ "\n```".toList)).reverse
        = "```".toList.reverse ++ ('\n' :: (s.reverse ++ ['\n'])) := by
      simp [List.reverse_append]
    rw [hrev]
    exact isPrefixOf_self_append _ _
  have hlen : ('\n' :: (s ++ "\n```".toList)).length - 3 = ('\n' :: (s ++ ['\n'])).length := by
    simp
  have htake : ('\n' :: (s ++ "\n```".toList)).take
      (('\n' :: (s ++ "\n```".toList)).length - 3) = '\n' :: (s ++ ['\n']) := by
    rw [hlen, htail]
    exact List.take_left _ _
  simp only [stripFence, hps, hnotjson, Bool.false_eq_true, if_false, hpre, if_true, hdrop,
    hsuf, htake]
  exact pyStrip_nl_wrap s hd htl

/-- Text with no leading fence passes through `stripFence` modulo the
outer strip (here: already stripped). -/
theorem stripFence_no_fence (s : List Char) (hd : s.dropWhile pySpace = s)
    (htl : s.reverse.dropWhile pySpace = s.reverse)
    (hnf : "```".toList.isPrefixOf s = false) :
    stripFence s = s := by
  have hps : pyStrip s = s := pyStrip_eq_self hd htl
  have hj : "```json".toList.isPrefixOf s = false := by
    cases hj2 : "```json".toList.isPrefixOf s with
    | false => rfl
    | true =>
      exfalso
      have hsplit : ("```".toList ++ "json".toList).isPrefixOf s = true := by
        have he : "```".toList ++ "json".toList = "```json".toList := by decide
        rw [he]
        exact hj2
      have := isPrefixOf_append_left "```".toList "json".toList s hsplit
      rw [hnf] at this
      exact Bool.noConfusion this
  simp only [stripFence, hps, hj, Bool.false_eq_true, if_false, hnf]

/-! ### C5: fenced JSON extraction commutes with plain parsing -/

/-- C5: for any both-ends-stripped reply payload that does not itself start
with a fence (every serialized JSON object starts with a brace, so all
qualify), `_parse_json_response` yields the same result on the
```json-tagged fence-wrapped text and on the bare fence-wrapped text as on
the unfenced text, and the unfenced result is exactly strict JSON parsing:
fence stripping and parsing commute with plain parsing. -/
theorem parseJsonResponse_fence_roundtrip (s : List Char)
    (hd : s.dropWhile pySpace = s) (htl : s.reverse.dropWhile pySpace = s.reverse)
    (hnf : "```".toList.isPrefixOf s = false) :
    parseJsonResponse (wrapJsonFence s) = parseJsonResponse s ∧
    parseJsonResponse (wrapBareFence s) = parseJsonResponse s ∧
    (∀ v, parseJsonResponse s = Except.ok v ↔ jsonLoads s = Except.ok v) := by
  have h1 := stripFence_wrapJson s hd htl
  have h2 := stripFence_wrapBare s hd htl
  have h3 : stripFence s = s := stripFence_no_fence s hd htl hnf
  refine ⟨?_, ?_, ?_⟩
  · unfold parseJsonResponse
    rw [h1, h3]
  · unfold parseJsonResponse
    rw [h2, h3]
  · intro v
    unfold parseJsonResponse
    rw [h3]
    cases h : jsonLoads s <;> simp

/-- C5 witness: the round-trip at the concrete payload `{"a": 1}`. -/
theorem parseJsonResponse_fence_roundtrip_witness :
    ("\x7b\"a\": 1\x7d".toList.dropWhile pySpace = "\x7b\"a\": 1\x7d".toList) ∧
    ("```".toList.isPrefixOf "\x7b\"a\": 1\x7d".toList = false) ∧
    parseJsonResponse (wrapJsonFence "\x7b\"a\": 1\x7d".toList)
      = parseJsonResponse "\x7b\"a\": 1\x7d".toList :=
  ⟨by decide, by decide,
    (parseJsonResponse_fence_roundtrip "\x7b\"a\": 1\x7d".toList
      (by decide) (by decide) (by decide)).1⟩

/-! ### C6: malformed text is rejected, never guessed -/

/-- C6: `_parse_json_response` on text that is not JSON after fence
stripping (e.g. `"This is not JSON"`) raises the malformed-response error,
and in general it returns a parsed value exactly when the stripped text
parses strictly as JSON — it never returns a guessed or partial result. -/
theorem parseJsonResponse_malformed :
    (∃ m, parseJsonResponse "This is not JSON".toList
        = Except.error (RespError.malformedResponse m)) ∧
    (∀ t, (∃ v, parseJsonResponse t = Except.ok v) ↔
      (∃ v, jsonLoads (stripFence t) = Except.ok v)) := by
  constructor
  · exact ⟨"expecting value", rfl⟩
  · intro t
    constructor
    · rintro ⟨v, hv⟩
      unfold parseJsonResponse at hv
      cases h : jsonLoads (stripFence t) with
      | ok a => exact ⟨a, rfl⟩
      | error e =>
        rw [h] at hv
        simp at hv
    · rintro ⟨v, hv⟩
      refine ⟨v, ?_⟩
      unfold parseJsonResponse
      rw [hv]
